import Mathlib

/-!
Shallow embedding of the soxidizer SOCKS5 proxy core
(`src/socks.rs` and `src/main.rs`).

The client byte stream is modelled as a `ByteStream`: the bytes still to be
delivered (`data`) together with a schedule (`sched`) saying how many bytes
the transport hands over at each `read` call (capped by the space the caller
offers, and by the bytes remaining; an exhausted schedule delivers as much
as possible).  A read that delivers nothing means end of stream, exactly as
a `0` return of `read` does in the source.

The two parsing loops (`read_client_hello`, `read_socks_request`) are
translated with an explicit fuel equal to their buffer size: the Rust loops
run `while total_read < buffer.len()` and each iteration reads at least one
byte, so the fuel can never be exhausted before the `while` condition turns
false, and both exits yield the same `ioError` result.  An out-of-bounds
slice of the stack buffer — which aborts the task in Rust — is made explicit
with the `panic` result.
-/

namespace Soxidizer

structure ByteStream where
  data : List Nat
  sched : List Nat
  deriving DecidableEq, Repr

/-- Number of bytes a single `read` call delivers: the scheduled chunk size
(at least one byte), capped by the buffer space offered by the caller; an
empty schedule delivers as much as fits. -/
def readLen (sched : List Nat) (space : Nat) : Nat :=
  match sched with
  | [] => space
  | k :: _ => min (max k 1) space

/-- One `read` call: returns the delivered bytes and the rest of the stream.
Delivering `[]` models `read` returning `0` (end of stream). -/
def ByteStream.readOnce (s : ByteStream) (space : Nat) : List Nat × ByteStream :=
  (s.data.take (readLen s.sched space),
   ⟨s.data.drop (readLen s.sched space), s.sched.tail⟩)

inductive HelloResult where
  | ok (methods : List Nat) (rest : ByteStream)
  | ioError
  | panic
  deriving DecidableEq, Repr

/-- The accumulation loop of `read_client_hello` (socks.rs).  `acc` is the
prefix of the 256-byte stack buffer written so far (`total_read = acc.length`);
the unread part of the buffer is zero-initialised, hence `acc.getD _ 0`.
The comparison `mc + 2 < acc.length` is the comparison of the source, written
there as `method_count + 2 < total_read`.  The slice `buffer[2..mc + 2]`
panics when `mc + 2` exceeds the buffer length 256. -/
def helloLoop : Nat → ByteStream → List Nat → HelloResult
  | 0, _, _ => .ioError
  | fuel + 1, s, acc =>
    if 256 ≤ acc.length then .ioError
    else
      let r := s.readOnce (256 - acc.length)
      if r.1.length = 0 then .ioError
      else
        let acc2 := acc ++ r.1
        if acc2.length < 2 then helloLoop fuel r.2 acc2
        else if acc2.getD 0 0 ≠ 5 then .ioError
        else
          let mc := acc2.getD 1 0
          if mc + 2 < acc2.length then helloLoop fuel r.2 acc2
          else if 256 < mc + 2 then .panic
          else .ok ((List.range mc).map fun i => acc2.getD (i + 2) 0) r.2

/-- `read_client_hello` of socks.rs. -/
def read_client_hello (s : ByteStream) : HelloResult :=
  helloLoop 256 s []

/-- UTF-8 validation/decoding as performed by `str::from_utf8` in the domain
branch of `read_socks_request`.  Overlong encodings, surrogates and values
above U+10FFFF are rejected.  The fuel is the length of the input; every
step consumes at least one byte. -/
def utf8DecodeLoop : Nat → List Nat → Option (List Char)
  | _, [] => some []
  | 0, _ :: _ => none
  | fuel + 1, b :: rest =>
    if b ≤ 0x7F then
      match utf8DecodeLoop fuel rest with
      | none => none
      | some cs => some (Char.ofNat b :: cs)
    else if b < 0xC2 then none
    else if b ≤ 0xDF then
      match rest with
      | b1 :: rest2 =>
        if 0x80 ≤ b1 ∧ b1 ≤ 0xBF then
          match utf8DecodeLoop fuel rest2 with
          | none => none
          | some cs => some (Char.ofNat ((b - 0xC0) * 0x40 + (b1 - 0x80)) :: cs)
        else none
      | [] => none
    else if b ≤ 0xEF then
      match rest with
      | b1 :: b2 :: rest3 =>
        if (if b = 0xE0 then 0xA0 else 0x80) ≤ b1 ∧
            b1 ≤ (if b = 0xED then 0x9F else 0xBF) ∧
            0x80 ≤ b2 ∧ b2 ≤ 0xBF then
          match utf8DecodeLoop fuel rest3 with
          | none => none
          | some cs =>
            some (Char.ofNat ((b - 0xE0) * 0x1000 + (b1 - 0x80) * 0x40 + (b2 - 0x80)) :: cs)
        else none
      | _ => none
    else if b ≤ 0xF4 then
      match rest with
      | b1 :: b2 :: b3 :: rest4 =>
        if (if b = 0xF0 then 0x90 else 0x80) ≤ b1 ∧
            b1 ≤ (if b = 0xF4 then 0x8F else 0xBF) ∧
            0x80 ≤ b2 ∧ b2 ≤ 0xBF ∧ 0x80 ≤ b3 ∧ b3 ≤ 0xBF then
          match utf8DecodeLoop fuel rest4 with
          | none => none
          | some cs =>
            some (Char.ofNat
              ((b - 0xF0) * 0x40000 + (b1 - 0x80) * 0x1000 + (b2 - 0x80) * 0x40 + (b3 - 0x80)) :: cs)
        else none
      | _ => none
    else none

def utf8Decode (l : List Nat) : Option (List Char) :=
  utf8DecodeLoop l.length l

inductive SocksRequestAddress where
  | ipV4 (bytes : List Nat)
  | ipV6 (bytes : List Nat)
  | domainName (name : List Char)
  deriving DecidableEq, Repr

structure SocksRequest where
  command : Nat
  address : SocksRequestAddress
  port : Nat
  deriving DecidableEq, Repr

inductive ReqResult where
  | ok (req : SocksRequest) (rest : ByteStream)
  | ioError
  deriving DecidableEq, Repr

/-- The accumulation loop of `read_socks_request` (socks.rs), over its
512-byte stack buffer.  `u16::from_be_bytes` is the explicit
`hi * 256 + lo`. -/
def requestLoop : Nat → ByteStream → List Nat → ReqResult
  | 0, _, _ => .ioError
  | fuel + 1, s, acc =>
    if 512 ≤ acc.length then .ioError
    else
      let r := s.readOnce (512 - acc.length)
      if r.1.length = 0 then .ioError
      else
        let acc2 := acc ++ r.1
        if acc2.length < 7 then requestLoop fuel r.2 acc2
        else if acc2.getD 0 0 ≠ 5 then .ioError
        else
          let command := acc2.getD 1 0
          let atype := acc2.getD 3 0
          if atype = 3 then
            let dl := acc2.getD 4 0
            if acc2.length < dl + 7 then requestLoop fuel r.2 acc2
            else
              match utf8Decode ((List.range dl).map fun i => acc2.getD (i + 5) 0) with
              | none => .ioError
              | some name =>
                .ok ⟨command, .domainName name,
                     acc2.getD (5 + dl) 0 * 256 + acc2.getD (5 + dl + 1) 0⟩ r.2
          else if atype = 1 then
            if acc2.length < 10 then requestLoop fuel r.2 acc2
            else
              .ok ⟨command, .ipV4 ((List.range 4).map fun i => acc2.getD (i + 4) 0),
                   acc2.getD 8 0 * 256 + acc2.getD 9 0⟩ r.2
          else if atype = 4 then
            if acc2.length < 22 then requestLoop fuel r.2 acc2
            else
              .ok ⟨command, .ipV6 ((List.range 16).map fun i => acc2.getD (i + 4) 0),
                   acc2.getD 20 0 * 256 + acc2.getD 21 0⟩ r.2
          else .ioError

/-- `read_socks_request` of socks.rs. -/
def read_socks_request (s : ByteStream) : ReqResult :=
  requestLoop 512 s []

/-- `send_reply` of main.rs: the fixed 10-octet reply frame
`[VER, code, RSV, ATYP=V4, 0.0.0.0, port 0]`. -/
def send_reply (reply : Nat) : List Nat :=
  [5, reply, 0, 1, 0, 0, 0, 0, 0, 0]

/-- `is_acceptable_hostname` of main.rs. -/
def is_acceptable_hostname (address : List Char) : Bool :=
  !(address.contains '/' || address.contains '\\' || address.contains ':'
    || address.contains (Char.ofNat 0))

/-- Decimal rendering of a number, as Rust's `Display` for `u16` produces it
in `format!("{}_{}", domain, port)`.  Fuel-structured; `natDigits` supplies
enough fuel for any input. -/
def natDigitsAux : Nat → Nat → List Char
  | 0, _ => []
  | fuel + 1, n =>
    if n < 10 then [Char.ofNat (48 + n)]
    else natDigitsAux fuel (n / 10) ++ [Char.ofNat (48 + n % 10)]

def natDigits (n : Nat) : List Char :=
  natDigitsAux (n + 1) n

/-- The rendezvous filename `format!("{}_{}", requested_domain, request.port)`
of main.rs. -/
def socket_filename (domain : List Char) (port : Nat) : List Char :=
  domain ++ '_' :: natDigits port

/-- `Path::join` of the Rust standard library, for Unix paths: an absolute
second component replaces the first; otherwise a `/` separator is inserted
unless the first component is empty or already ends in `/`. -/
def pathJoin (dir file : List Char) : List Char :=
  if file.head? = some '/' then file
  else if dir = [] then file
  else if dir.getLast? = some '/' then dir ++ file
  else dir ++ '/' :: file

inductive ServeOutcome where
  | parseFail (written : List Nat)
  | methodFail (written : List Nat)
  | replied (code : Nat) (written : List Nat)
  | relaying (written : List Nat) (early : List Nat)
  | panicked
  deriving DecidableEq, Repr

/-- The dispatch part of `serve_socks` (main.rs), acting on a parsed request.
`w` is the transcript of bytes already written to the client; `early` holds
the client bytes still unread in the stream, which `copy_bidirectional` will
forward first once the relay starts.  `connects path` models whether
`UnixStream::connect(path)` succeeds. -/
def dispatchRequest (connects : List Char → Bool) (dir : List Char)
    (req : SocksRequest) (w : List Nat) (early : List Nat) : ServeOutcome :=
  if req.command ≠ 1 then .replied 7 (w ++ send_reply 7)
  else
    match req.address with
    | .ipV4 _ => .replied 8 (w ++ send_reply 8)
    | .ipV6 _ => .replied 8 (w ++ send_reply 8)
    | .domainName d =>
      if is_acceptable_hostname d = false then .replied 2 (w ++ send_reply 2)
      else if connects (pathJoin dir (socket_filename d req.port)) = false then
        .replied 4 (w ++ send_reply 4)
      else .relaying (w ++ send_reply 0) early

/-- `serve_socks` of main.rs: greeting, method negotiation, request parsing,
then dispatch.  The `written` payloads record every byte the session writes
to the client. -/
def serve_socks (connects : List Char → Bool) (dir : List Char)
    (s : ByteStream) : ServeOutcome :=
  match read_client_hello s with
  | .ioError => .parseFail []
  | .panic => .panicked
  | .ok methods rest =>
    if methods.contains 0 = false then .methodFail [5, 255]
    else
      match read_socks_request rest with
      | .ioError => .parseFail [5, 0]
      | .ok req rest2 => dispatchRequest connects dir req [5, 0] rest2.data

/-- An accepted connection: a Unix-domain stream carries the peer credential
that `peer_cred()` reports (`none` when that call fails); `get_uid` on a TCP
stream always fails in the source. -/
inductive PeerStream where
  | unixStream (peerCred : Option Nat)
  | tcpStream
  deriving DecidableEq, Repr

/-- `GenericStream::get_uid` of main.rs. -/
def PeerStream.get_uid : PeerStream → Option Nat
  | .unixStream c => c
  | .tcpStream => none

/-- `ProxyService::check_allowed_socket` of main.rs; the `HashSet` of allowed
uids is modelled by the list it was collected from. -/
def check_allowed_socket (allowed_uids : Option (List Nat))
    (socket : PeerStream) : Bool :=
  match allowed_uids with
  | none => true
  | some l =>
    match socket.get_uid with
    | none => false
    | some uid => l.contains uid

/-- The accept loops of main.rs run `check_allowed_socket` and `continue`
(dropping the connection) before spawning the session; a rejected connection
never reaches `serve_socks`, so no SOCKS byte is read or written on it. -/
def accept_connection (allowed_uids : Option (List Nat))
    (connects : List Char → Bool) (dir : List Char)
    (socket : PeerStream) (s : ByteStream) : Option ServeOutcome :=
  if check_allowed_socket allowed_uids socket then
    some (serve_socks connects dir s)
  else none

/-! Helper lemmas. -/

theorem readLen_pos (sched : List Nat) (space : Nat) (h : 1 ≤ space) :
    1 ≤ readLen sched space := by
  cases sched with
  | nil => exact h
  | cons k ks =>
    simp only [readLen]
    omega

/-- Membership in the allow-list check coincides with list membership. -/
theorem contains_iff_mem (l : List Nat) (u : Nat) : l.contains u = true ↔ u ∈ l := by
  simp [List.contains, List.elem_iff]

/-- The hostname filter of `is_acceptable_hostname` accepts exactly the
strings containing none of `/`, `\`, `:`, NUL. -/
theorem is_acceptable_iff (d : List Char) :
    is_acceptable_hostname d = true ↔
      ¬('/' ∈ d ∨ '\\' ∈ d ∨ ':' ∈ d ∨ Char.ofNat 0 ∈ d) := by
  simp [is_acceptable_hostname, List.contains, List.elem_iff, not_or]
  tauto

/-! Claim theorems. -/

/-- C2: the greeting parser of `read_client_hello` returns a method set for
the truncated greeting `[5, 3, 0]` even though only 3 of the declared
2 + 3 = 5 bytes were read; the missing method octets are reported as the
zero-initialised buffer contents.  The source compares
`method_count + 2 < total_read` where the accumulation loop of
`read_socks_request` compares `total_read < length + 7`, so the guard is
reversed and a truncated greeting is never rejected. -/
theorem c2_truncated_greeting_accepted :
    read_client_hello ⟨[5, 3, 0], []⟩ = .ok [0, 0, 0] ⟨[], []⟩ ∧
    (3 : Nat) < 2 + 3 :=
  ⟨rfl, by norm_num⟩

set_option maxRecDepth 8000 in
/-- C3: the greeting parser panics for a declared method count of 255: with
`buffer` of 256 bytes the slice `buffer[2..257]` is out of bounds.  It does
so both when all 255 method octets have been received and already when only
the two header bytes have arrived. -/
theorem c3_greeting_parser_panics :
    read_client_hello ⟨[5, 255] ++ List.replicate 255 7, []⟩ = .panic ∧
    read_client_hello ⟨[5, 255], []⟩ = .panic := by
  constructor <;> decide

/-- C6: every request reply emitted by the dispatch path of `serve_socks` is
exactly the 10 octets `[5, code, 0, 1, 0, 0, 0, 0, 0, 0]` — version 5, the
code, reserved 0, address type 1, bind-address 0.0.0.0, bind-port 0 — for
every code the core emits (2, 4, 7, 8 on the failure paths and 0 before the
relay). -/
theorem c6_reply_framing :
    (∀ c : Nat, send_reply c = [5, c, 0, 1, 0, 0, 0, 0, 0, 0] ∧
      (send_reply c).length = 10) ∧
    ∀ (connects : List Char → Bool) (dir : List Char) (req : SocksRequest)
      (w early : List Nat),
      (∃ c, c ∈ ([2, 4, 7, 8] : List Nat) ∧
        dispatchRequest connects dir req w early =
          .replied c (w ++ [5, c, 0, 1, 0, 0, 0, 0, 0, 0])) ∨
      dispatchRequest connects dir req w early =
        .relaying (w ++ [5, 0, 0, 1, 0, 0, 0, 0, 0, 0]) early := by
  refine ⟨fun c => ⟨rfl, rfl⟩, ?_⟩
  intro connects dir req w early
  obtain ⟨cmd, addr, P⟩ := req
  by_cases hcmd : cmd = 1
  · subst hcmd
    cases addr with
    | ipV4 a => exact Or.inl ⟨8, by norm_num, by simp [dispatchRequest, send_reply]⟩
    | ipV6 a => exact Or.inl ⟨8, by norm_num, by simp [dispatchRequest, send_reply]⟩
    | domainName d =>
      by_cases hd : is_acceptable_hostname d = false
      · exact Or.inl ⟨2, by norm_num, by simp [dispatchRequest, hd, send_reply]⟩
      · by_cases hc : connects (pathJoin dir (socket_filename d P)) = false
        · exact Or.inl ⟨4, by norm_num, by simp [dispatchRequest, hd, hc, send_reply]⟩
        · exact Or.inr (by simp [dispatchRequest, hd, hc, send_reply])
  · exact Or.inl ⟨7, by norm_num, by simp [dispatchRequest, hcmd, send_reply]⟩

/-- Every character produced by the decimal renderer is a digit
`Char.ofNat (48 + m)` with `m < 10`. -/
theorem natDigitsAux_mem (fuel : Nat) : ∀ n c, c ∈ natDigitsAux fuel n →
    ∃ m, m < 10 ∧ c = Char.ofNat (48 + m) := by
  induction fuel with
  | zero => intro n c h; simp [natDigitsAux] at h
  | succ f ih =>
    intro n c h
    simp only [natDigitsAux] at h
    by_cases hn : n < 10
    · rw [if_pos hn] at h
      simp at h
      exact ⟨n, hn, h⟩
    · rw [if_neg hn] at h
      rcases List.mem_append.mp h with h1 | h2
      · exact ih _ _ h1
      · simp at h2
        exact ⟨n % 10, Nat.mod_lt _ (by norm_num), h2⟩

theorem digit_char_ne_slash (m : Nat) (hm : m < 10) : Char.ofNat (48 + m) ≠ '/' := by
  interval_cases m <;> decide

theorem natDigitsAux_ne_nil (fuel n : Nat) : natDigitsAux (fuel + 1) n ≠ [] := by
  simp only [natDigitsAux]
  by_cases hn : n < 10
  · simp [hn]
  · simp [hn]

/-- The decimal renderer produces no leading zero for a nonzero input. -/
theorem natDigitsAux_head_ne_zero (fuel : Nat) : ∀ n, n < fuel → n ≠ 0 →
    (natDigitsAux fuel n).head? ≠ some '0' := by
  induction fuel with
  | zero => intro n h; exact absurd h (Nat.not_lt_zero n)
  | succ f ih =>
    intro n hlt hne
    simp only [natDigitsAux]
    by_cases hn : n < 10
    · rw [if_pos hn]
      have h1 : 1 ≤ n := Nat.pos_of_ne_zero hne
      interval_cases n <;> decide
    · rw [if_neg hn]
      have hnn : natDigitsAux f (n / 10) ≠ [] := by
        cases f with
        | zero => exact absurd (by omega : n = 0) hne
        | succ g => exact natDigitsAux_ne_nil g (n / 10)
      obtain ⟨hd, tl, hcons⟩ := List.exists_cons_of_ne_nil hnn
      rw [hcons, List.cons_append, List.head?_cons]
      have hih := ih (n / 10) (by omega) (by omega)
      rw [hcons, List.head?_cons] at hih
      exact hih

/-- C5: for a parsed CONNECT request with a domain-name address, the session
replies with code 2 exactly when the domain contains one of `/`, `\`, `:`,
NUL; a domain containing none of them passes `is_acceptable_hostname` and
the session proceeds to the resolver and backend dial (reply 4 or the
relay). -/
theorem c5_hostname_policy (connects : List Char → Bool) (dir d : List Char)
    (P : Nat) (w early : List Nat) :
    (is_acceptable_hostname d = true ↔
      ¬('/' ∈ d ∨ '\\' ∈ d ∨ ':' ∈ d ∨ Char.ofNat 0 ∈ d)) ∧
    ((∃ wr, dispatchRequest connects dir ⟨1, .domainName d, P⟩ w early =
        .replied 2 wr) ↔
      ('/' ∈ d ∨ '\\' ∈ d ∨ ':' ∈ d ∨ Char.ofNat 0 ∈ d)) ∧
    (is_acceptable_hostname d = true →
      dispatchRequest connects dir ⟨1, .domainName d, P⟩ w early =
        .replied 4 (w ++ send_reply 4) ∨
      dispatchRequest connects dir ⟨1, .domainName d, P⟩ w early =
        .relaying (w ++ send_reply 0) early) := by
  refine ⟨is_acceptable_iff d, ?_, ?_⟩
  · by_cases h : is_acceptable_hostname d = true
    · have hgood := (is_acceptable_iff d).mp h
      by_cases hc : connects (pathJoin dir (socket_filename d P)) = false <;>
        simp [dispatchRequest, h, hc, hgood]
    · have h' : is_acceptable_hostname d = false := by
        revert h; cases is_acceptable_hostname d <;> simp
      have hbad : ('/' ∈ d ∨ '\\' ∈ d ∨ ':' ∈ d ∨ Char.ofNat 0 ∈ d) := by
        by_contra hnb
        have := (is_acceptable_iff d).mpr hnb
        rw [h'] at this
        exact Bool.false_ne_true this
      simp [dispatchRequest, h', hbad]
  · intro h
    by_cases hc : connects (pathJoin dir (socket_filename d P)) = false
    · exact Or.inl (by simp [dispatchRequest, h, hc])
    · exact Or.inr (by simp [dispatchRequest, h, hc])

/-- Witness for C5 at the domain `"a"`. -/
theorem c5_witness :
    (is_acceptable_hostname ['a'] = true ↔
      ¬('/' ∈ ['a'] ∨ '\\' ∈ ['a'] ∨ ':' ∈ ['a'] ∨ Char.ofNat 0 ∈ ['a'])) ∧
    ((∃ wr, dispatchRequest (fun _ => false) [] ⟨1, .domainName ['a'], 80⟩ [5, 0] [] =
        .replied 2 wr) ↔
      ('/' ∈ ['a'] ∨ '\\' ∈ ['a'] ∨ ':' ∈ ['a'] ∨ Char.ofNat 0 ∈ ['a'])) ∧
    (is_acceptable_hostname ['a'] = true →
      dispatchRequest (fun _ => false) [] ⟨1, .domainName ['a'], 80⟩ [5, 0] [] =
        .replied 4 ([5, 0] ++ send_reply 4) ∨
      dispatchRequest (fun _ => false) [] ⟨1, .domainName ['a'], 80⟩ [5, 0] [] =
        .relaying ([5, 0] ++ send_reply 0) []) :=
  c5_hostname_policy (fun _ => false) [] ['a'] 80 [5, 0] []

/-- C7: for an accepted CONNECT request with hostname `H` and port `P`, the
backend dial consults exactly the path joining the rendezvous directory with
the single component `H_P`; the filename contains no path separator and the
port is rendered in decimal without leading zeros. -/
theorem c7_resolver_path (connects : List Char → Bool) (dir d : List Char)
    (P : Nat) (w early : List Nat) (hacc : is_acceptable_hostname d = true) :
    dispatchRequest connects dir ⟨1, .domainName d, P⟩ w early =
      (if connects (pathJoin dir (socket_filename d P)) = true
        then .relaying (w ++ send_reply 0) early
        else .replied 4 (w ++ send_reply 4)) ∧
    socket_filename d P = d ++ '_' :: natDigits P ∧
    '/' ∉ socket_filename d P ∧
    (P ≠ 0 → (natDigits P).head? ≠ some '0') ∧
    natDigits 0 = ['0'] := by
  refine ⟨?_, rfl, ?_, ?_, rfl⟩
  · by_cases hc : connects (pathJoin dir (socket_filename d P)) = false <;>
      simp [dispatchRequest, hacc, hc]
  · intro hmem
    simp only [socket_filename, List.mem_append, List.mem_cons] at hmem
    rcases hmem with h1 | h2 | h3
    · exact ((is_acceptable_iff d).mp hacc) (Or.inl h1)
    · exact absurd h2 (by decide)
    · obtain ⟨m, hm, hcm⟩ := natDigitsAux_mem (P + 1) P '/' h3
      exact digit_char_ne_slash m hm hcm.symm
  · intro hP
    exact natDigitsAux_head_ne_zero (P + 1) P (by omega) hP

/-- Witness for C7 at hostname `"a"`, port 80, directory `"t"`. -/
theorem c7_witness :
    is_acceptable_hostname ['a'] = true ∧
    (dispatchRequest (fun _ => true) ['t'] ⟨1, .domainName ['a'], 80⟩ [5, 0] [] =
      (if (fun _ : List Char => true) (pathJoin ['t'] (socket_filename ['a'] 80)) = true
        then .relaying ([5, 0] ++ send_reply 0) []
        else .replied 4 ([5, 0] ++ send_reply 4)) ∧
    socket_filename ['a'] 80 = ['a'] ++ '_' :: natDigits 80 ∧
    '/' ∉ socket_filename ['a'] 80 ∧
    ((80 : Nat) ≠ 0 → (natDigits 80).head? ≠ some '0') ∧
    natDigits 0 = ['0']) :=
  ⟨by decide,
   c7_resolver_path (fun _ => true) ['t'] ['a'] 80 [5, 0] [] (by decide)⟩

/-- C9: with an allow-list configured, `check_allowed_socket` passes exactly
when the peer identity is available and listed; `get_uid` on a TCP stream is
never available, so every TCP connection fails the check; without an
allow-list every connection passes.  A connection failing the check is
dropped by the accept loop before `serve_socks` runs, so no SOCKS byte is
read or written on it. -/
theorem c9_acceptance_policy (uids : List Nat) (socket : PeerStream)
    (connects : List Char → Bool) (dir : List Char) (s : ByteStream) :
    (check_allowed_socket (some uids) socket = true ↔
      ∃ u, socket.get_uid = some u ∧ u ∈ uids) ∧
    check_allowed_socket none socket = true ∧
    PeerStream.get_uid .tcpStream = none ∧
    check_allowed_socket (some uids) .tcpStream = false ∧
    (accept_connection (some uids) connects dir socket s = none ↔
      check_allowed_socket (some uids) socket = false) ∧
    accept_connection none connects dir socket s =
      some (serve_socks connects dir s) := by
  refine ⟨?_, rfl, rfl, rfl, ?_, rfl⟩
  · simp only [check_allowed_socket]
    cases h : socket.get_uid with
    | none => simp
    | some u => simp [contains_iff_mem]
  · cases h : check_allowed_socket (some uids) socket <;>
      simp [accept_connection, h]

/-- C10: a parsed request whose command octet is not 1 (CONNECT) — BIND (2)
and UDP ASSOCIATE (3) included — is answered with the 10-octet reply of code
7, uniformly in the connect predicate, the rendezvous directory and the
pending client bytes: the resolver and the backend are never consulted. -/
theorem c10_command_policy (connects : List Char → Bool) (dir : List Char)
    (req : SocksRequest) (w early : List Nat) (h : req.command ≠ 1) :
    dispatchRequest connects dir req w early = .replied 7 (w ++ send_reply 7) ∧
    send_reply 7 = [5, 7, 0, 1, 0, 0, 0, 0, 0, 0] :=
  ⟨by simp [dispatchRequest, h], rfl⟩

/-- Witness for C10 at the concrete BIND request `⟨2, "a", 80⟩`. -/
theorem c10_witness :
    ((⟨2, .domainName ['a'], 80⟩ : SocksRequest).command ≠ 1) ∧
    (dispatchRequest (fun _ => false) [] ⟨2, .domainName ['a'], 80⟩ [5, 0] [] =
      .replied 7 ([5, 0] ++ send_reply 7) ∧
    send_reply 7 = [5, 7, 0, 1, 0, 0, 0, 0, 0, 0]) :=
  ⟨by decide,
   c10_command_policy (fun _ => false) [] ⟨2, .domainName ['a'], 80⟩ [5, 0] []
     (by decide)⟩

/-! Single-iteration characterisations of the two accumulation loops. -/

/-- One iteration of the greeting loop that has not yet seen two bytes
continues accumulating. -/
theorem helloLoop_continue (fuel : Nat) (s s' : ByteStream) (acc chunk : List Nat)
    (hacc : acc.length < 256)
    (hr : s.readOnce (256 - acc.length) = (chunk, s'))
    (hne : chunk ≠ [])
    (hshort : (acc ++ chunk).length < 2) :
    helloLoop (fuel + 1) s acc = helloLoop fuel s' (acc ++ chunk) := by
  have h0 : ¬ 256 ≤ acc.length := by omega
  have hcl : ¬ chunk.length = 0 := by simpa [List.length_eq_zero] using hne
  simp only [helloLoop, hr]
  simp_all

/-- One iteration of the greeting loop that reaches the return path yields
the advertised method octets (with the zero-initialised buffer supplying any
bytes past `acc ++ chunk`). -/
theorem helloLoop_ok (fuel : Nat) (s s' : ByteStream) (acc chunk : List Nat)
    (hacc : acc.length < 256)
    (hr : s.readOnce (256 - acc.length) = (chunk, s'))
    (hne : chunk ≠ [])
    (hlen : 2 ≤ (acc ++ chunk).length)
    (hver : (acc ++ chunk).getD 0 0 = 5)
    (hmc : ¬ ((acc ++ chunk).getD 1 0 + 2 < (acc ++ chunk).length))
    (hfit : (acc ++ chunk).getD 1 0 + 2 ≤ 256) :
    helloLoop (fuel + 1) s acc =
      .ok ((List.range ((acc ++ chunk).getD 1 0)).map
            fun i => (acc ++ chunk).getD (i + 2) 0) s' := by
  have h0 : ¬ 256 ≤ acc.length := by omega
  have hcl : ¬ chunk.length = 0 := by simpa [List.length_eq_zero] using hne
  have h2 : ¬ (acc ++ chunk).length < 2 := by omega
  have h256 : ¬ 256 < (acc ++ chunk).getD 1 0 + 2 := by omega
  simp only [helloLoop, hr]
  simp_all
  split_ifs <;> first | rfl | omega

/-- One iteration of the request loop that reaches the domain-name return
path yields the parsed request. -/
theorem requestLoop_ok_domain (fuel : Nat) (s s' : ByteStream)
    (acc chunk : List Nat) (name : List Char)
    (hacc : acc.length < 512)
    (hr : s.readOnce (512 - acc.length) = (chunk, s'))
    (hne : chunk ≠ [])
    (hlen : 7 ≤ (acc ++ chunk).length)
    (hver : (acc ++ chunk).getD 0 0 = 5)
    (hat : (acc ++ chunk).getD 3 0 = 3)
    (hdl : (acc ++ chunk).getD 4 0 + 7 ≤ (acc ++ chunk).length)
    (hutf : utf8Decode ((List.range ((acc ++ chunk).getD 4 0)).map
        fun i => (acc ++ chunk).getD (i + 5) 0) = some name) :
    requestLoop (fuel + 1) s acc =
      .ok ⟨(acc ++ chunk).getD 1 0, .domainName name,
           (acc ++ chunk).getD (5 + (acc ++ chunk).getD 4 0) 0 * 256 +
             (acc ++ chunk).getD (5 + (acc ++ chunk).getD 4 0 + 1) 0⟩ s' := by
  have h0 : ¬ 512 ≤ acc.length := by omega
  have hcl : ¬ chunk.length = 0 := by simpa [List.length_eq_zero] using hne
  have h7 : ¬ (acc ++ chunk).length < 7 := by omega
  have hdl7 : ¬ (acc ++ chunk).length < (acc ++ chunk).getD 4 0 + 7 := by omega
  simp only [requestLoop, hr]
  simp_all
  split_ifs <;> first | rfl | omega

/-- One iteration of the request loop that sees a full header with an
address-type octet outside `{1, 3, 4}` fails with an I/O error. -/
theorem requestLoop_err_atyp (fuel : Nat) (s s' : ByteStream)
    (acc chunk : List Nat)
    (hacc : acc.length < 512)
    (hr : s.readOnce (512 - acc.length) = (chunk, s'))
    (hne : chunk ≠ [])
    (hlen : 7 ≤ (acc ++ chunk).length)
    (hver : (acc ++ chunk).getD 0 0 = 5)
    (hat3 : (acc ++ chunk).getD 3 0 ≠ 3)
    (hat1 : (acc ++ chunk).getD 3 0 ≠ 1)
    (hat4 : (acc ++ chunk).getD 3 0 ≠ 4) :
    requestLoop (fuel + 1) s acc = .ioError := by
  have h0 : ¬ 512 ≤ acc.length := by omega
  have hcl : ¬ chunk.length = 0 := by simpa [List.length_eq_zero] using hne
  have h7 : ¬ (acc ++ chunk).length < 7 := by omega
  simp only [requestLoop, hr]
  simp_all

/-- For any delivery schedule, a stream carrying exactly the greeting
`[5, 0]` (a greeting declaring zero methods) parses to the empty method
set, consuming the whole stream. -/
theorem hello_nmethods_zero (sched : List Nat) :
    ∃ sc, read_client_hello ⟨[5, 0], sched⟩ = .ok [] ⟨[], sc⟩ := by
  have hpos : 1 ≤ readLen sched 256 := readLen_pos sched 256 (by norm_num)
  rcases Nat.lt_or_ge (readLen sched 256) 2 with hsmall | hbig
  · -- the first read delivers a single byte
    have hn : readLen sched 256 = 1 := by omega
    refine ⟨sched.tail.tail, ?_⟩
    have hr1 : (⟨[5, 0], sched⟩ : ByteStream).readOnce (256 - ([] : List Nat).length) =
        ([5], ⟨[0], sched.tail⟩) := by
      simp [ByteStream.readOnce, hn]
    have e1 : read_client_hello ⟨[5, 0], sched⟩ = helloLoop 255 ⟨[0], sched.tail⟩ [5] := by
      have h := helloLoop_continue 255 ⟨[5, 0], sched⟩ ⟨[0], sched.tail⟩ [] [5]
        (by simp) hr1 (by simp) (by simp)
      simpa [read_client_hello] using h
    have hpos2 : 1 ≤ readLen sched.tail (256 - ([5] : List Nat).length) :=
      readLen_pos _ _ (by norm_num)
    have hr2 : (⟨[0], sched.tail⟩ : ByteStream).readOnce (256 - ([5] : List Nat).length) =
        ([0], ⟨[], sched.tail.tail⟩) := by
      simp only [ByteStream.readOnce]
      rw [List.take_of_length_le (by simpa using hpos2),
        List.drop_eq_nil_of_le (by simpa using hpos2)]
    have e2 : helloLoop 255 ⟨[0], sched.tail⟩ [5] = .ok [] ⟨[], sched.tail.tail⟩ := by
      refine (helloLoop_ok 254 ⟨[0], sched.tail⟩ ⟨[], sched.tail.tail⟩ [5] [0]
        (by simp) hr2 (by simp) (by simp) (by decide) (by decide) (by decide)).trans ?_
      congr 1
    rw [e1, e2]
  · -- the first read delivers both bytes at once
    refine ⟨sched.tail, ?_⟩
    have hr1 : (⟨[5, 0], sched⟩ : ByteStream).readOnce (256 - ([] : List Nat).length) =
        ([5, 0], ⟨[], sched.tail⟩) := by
      simp only [ByteStream.readOnce]
      rw [List.take_of_length_le (by simpa using hbig),
        List.drop_eq_nil_of_le (by simpa using hbig)]
    have e1 : read_client_hello ⟨[5, 0], sched⟩ = .ok [] ⟨[], sched.tail⟩ := by
      refine (helloLoop_ok 255 ⟨[5, 0], sched⟩ ⟨[], sched.tail⟩ [] [5, 0]
        (by simp) hr1 (by simp) (by simp) (by decide) (by decide) (by decide)).trans ?_
      congr 1
    exact e1

/-- C8: a greeting declaring zero methods — the exact stream `[5, 0]`, under
every delivery schedule — parses to the empty method set, and the session
writes exactly `[5, 0xFF]` (no acceptable method) and stops at negotiation,
never reading a request. -/
theorem c8_empty_method_set (connects : List Char → Bool) (dir : List Char)
    (sched : List Nat) :
    (∃ sc, read_client_hello ⟨[5, 0], sched⟩ = .ok [] ⟨[], sc⟩) ∧
    serve_socks connects dir ⟨[5, 0], sched⟩ = .methodFail [5, 255] := by
  obtain ⟨sc, hsc⟩ := hello_nmethods_zero sched
  refine ⟨⟨sc, hsc⟩, ?_⟩
  unfold serve_socks
  rw [hsc]
  simp

/-- C1 counterexample: a session whose request carries the address-type
octet 2 (not 1, 3 or 4) terminates having written only the two
method-selection bytes `[5, 0]`: no 10-octet reply is emitted at all — the
reply-code octet 8 never appears in the transcript — contradicting the
claim that such a session always receives a code-8 reply. -/
theorem c1_counterexample :
    serve_socks (fun _ => false) [] ⟨[5, 1, 0, 5, 1, 0, 2, 0, 0, 0], [3]⟩ =
      .parseFail [5, 0] ∧
    ([5, 0] : List Nat).contains 8 = false :=
  ⟨rfl, rfl⟩

/-- C1 (amended): a parsed CONNECT request whose address is an IP address —
address types 1 and 4, the only ones `read_socks_request` parses besides
domain names — is answered with the 10-octet code-8 reply, while a request
octet stream whose address-type octet is outside `{1, 3, 4}` makes
`read_socks_request` fail, so the session terminates without any request
reply. -/
theorem c1_amended (connects : List Char → Bool) (dir : List Char)
    (a : List Nat) (P : Nat) (w early : List Nat) (data : List Nat)
    (h7 : 7 ≤ data.length) (h512 : data.length ≤ 512)
    (hver : data.getD 0 0 = 5)
    (hat3 : data.getD 3 0 ≠ 3) (hat1 : data.getD 3 0 ≠ 1)
    (hat4 : data.getD 3 0 ≠ 4) :
    dispatchRequest connects dir ⟨1, .ipV4 a, P⟩ w early =
      .replied 8 (w ++ send_reply 8) ∧
    dispatchRequest connects dir ⟨1, .ipV6 a, P⟩ w early =
      .replied 8 (w ++ send_reply 8) ∧
    read_socks_request ⟨data, []⟩ = .ioError := by
  refine ⟨by simp [dispatchRequest], by simp [dispatchRequest], ?_⟩
  have hne : data ≠ [] := by
    intro h
    rw [h] at h7
    simp at h7
  have hr : (⟨data, []⟩ : ByteStream).readOnce (512 - ([] : List Nat).length) =
      (data, ⟨[], []⟩) := by
    simp only [ByteStream.readOnce, readLen]
    rw [List.take_of_length_le (by simpa using h512),
      List.drop_eq_nil_of_le (by simpa using h512)]
    rfl
  exact requestLoop_err_atyp 511 ⟨data, []⟩ ⟨[], []⟩ [] data (by simp) hr hne
    (by simpa using h7) (by simpa using hver) (by simpa using hat3)
    (by simpa using hat1) (by simpa using hat4)

/-- Witness for the amended C1 at address-type octet 2. -/
theorem c1_witness :
    (7 : Nat) ≤ ([5, 1, 0, 2, 0, 0, 0] : List Nat).length ∧
    (dispatchRequest (fun _ => false) [] ⟨1, .ipV4 [127, 0, 0, 1], 80⟩ [5, 0] [] =
      .replied 8 ([5, 0] ++ send_reply 8) ∧
    dispatchRequest (fun _ => false) [] ⟨1, .ipV6 [127, 0, 0, 1], 80⟩ [5, 0] [] =
      .replied 8 ([5, 0] ++ send_reply 8) ∧
    read_socks_request ⟨[5, 1, 0, 2, 0, 0, 0], []⟩ = .ioError) :=
  ⟨by decide,
   c1_amended (fun _ => false) [] [127, 0, 0, 1] 80 [5, 0] [] [5, 1, 0, 2, 0, 0, 0]
     (by decide) (by decide) (by decide) (by decide) (by decide) (by decide)⟩

/-- C4 counterexample: the client sends the byte 99 after the end of the
declared request message, in the same transport chunk as the request; the
request parser reads it into its local buffer, which is dropped, and the
relay starts with no early payload (`[]`, not `[99]`) — the extra byte is
discarded, contradicting the claim that such bytes reach the backend. -/
theorem c4_counterexample :
    serve_socks (fun _ => true) [] ⟨[5, 1, 0, 5, 1, 0, 3, 1, 97, 0, 80, 99], [3]⟩ =
      .relaying [5, 0, 5, 0, 0, 1, 0, 0, 0, 0, 0, 0] [] ∧
    ([] : List Nat) ≠ [99] :=
  ⟨rfl, by decide⟩

/-- C4 (amended): bytes sent beyond the end of the request are preserved
exactly when the parser's reads do not consume them: with chunk boundaries
aligned to the greeting and request messages, everything after the request
is still unread when the relay starts and becomes its first client-to-
backend payload. -/
theorem c4_amended (extra : List Nat) (connects : List Char → Bool)
    (dir : List Char)
    (hc : connects (pathJoin dir (socket_filename ['a'] 80)) = true) :
    serve_socks connects dir
      ⟨[5, 1, 0, 5, 1, 0, 3, 1, 97, 0, 80] ++ extra, [3, 8]⟩ =
      .relaying ([5, 0] ++ send_reply 0) extra := by
  have hr1 : (⟨[5, 1, 0, 5, 1, 0, 3, 1, 97, 0, 80] ++ extra, [3, 8]⟩ :
      ByteStream).readOnce (256 - ([] : List Nat).length) =
      ([5, 1, 0], ⟨[5, 1, 0, 3, 1, 97, 0, 80] ++ extra, [8]⟩) := rfl
  have e1 : read_client_hello ⟨[5, 1, 0, 5, 1, 0, 3, 1, 97, 0, 80] ++ extra, [3, 8]⟩ =
      .ok [0] ⟨[5, 1, 0, 3, 1, 97, 0, 80] ++ extra, [8]⟩ := by
    refine (helloLoop_ok 255 _ ⟨[5, 1, 0, 3, 1, 97, 0, 80] ++ extra, [8]⟩ [] [5, 1, 0]
      (by simp) hr1 (by simp) (by decide) (by decide) (by decide) (by decide)).trans ?_
    congr 1
  have hr2 : (⟨[5, 1, 0, 3, 1, 97, 0, 80] ++ extra, [8]⟩ :
      ByteStream).readOnce (512 - ([] : List Nat).length) =
      ([5, 1, 0, 3, 1, 97, 0, 80], ⟨extra, []⟩) := rfl
  have e2 : read_socks_request ⟨[5, 1, 0, 3, 1, 97, 0, 80] ++ extra, [8]⟩ =
      .ok ⟨1, .domainName ['a'], 80⟩ ⟨extra, []⟩ := by
    refine (requestLoop_ok_domain 511 _ ⟨extra, []⟩ [] [5, 1, 0, 3, 1, 97, 0, 80] ['a']
      (by simp) hr2 (by simp) (by decide) (by decide) (by decide) (by decide)
      (by decide)).trans ?_
    congr 1
  have ha : is_acceptable_hostname ['a'] = true := by decide
  have hcont : ([0] : List Nat).contains 0 = true := by decide
  unfold serve_socks
  rw [e1]
  simp only [hcont]
  rw [e2]
  simp [dispatchRequest, ha, hc]

/-- Witness for the amended C4 with one extra byte 99. -/
theorem c4_witness :
    ((fun _ : List Char => true) (pathJoin [] (socket_filename ['a'] 80)) = true) ∧
    serve_socks (fun _ => true) []
      ⟨[5, 1, 0, 5, 1, 0, 3, 1, 97, 0, 80] ++ [99], [3, 8]⟩ =
      .relaying ([5, 0] ++ send_reply 0) [99] :=
  ⟨rfl, c4_amended [99] (fun _ => true) [] rfl⟩

end Soxidizer
